import Mathlib

/-!
# Verification of the mongoose-slugger retry-driven slug generation core

Shallow embedding of the library's core (src/lib/slugger.ts and
src/lib/sluggerUtils.ts): the slug generator, the pre-validate hook, the
save-retry orchestrator `saveSlugWithRetries`, and the model-wrapping step.

Modelling conventions:
* JavaScript strings are Lean `String`s; truncation/stripping is performed on
  the underlying character list (`String.data`), which coincides with the
  JS operations used by the source (`substring`, `replace` of a trailing dash).
* The limax-based text normalization (`limaxFixed`) is an external collaborator
  of the library (an npm dependency, not part of the repository); it is taken
  as an abstract parameter `norm : String → String` wherever it is used.
* A document is modelled by the value at its configured `slugPath` together
  with the per-instance slug attachment (the symbol-keyed property
  `attachmentPropertyName` holding `SlugDocumentAttachment`); the remaining
  document fields only feed the generator and are absorbed into the
  generator parameter `gen : Nat → String` for the orchestrator, and appear
  as an explicit value list for the default generator.
* The underlying MongoDB store is modelled as a function from the call number
  and the submitted slug value to an optional thrown error (`none` = the
  write succeeded).  Thrown JS values are modelled by `JsError`.
* The unbounded `for (;;)` loop of `saveSlugWithRetries` is modelled with
  explicit fuel; `none` means the fuel ran out before the loop terminated.
-/

namespace Slugger

/-! ## Errors

A thrown JS value is either an error object carrying `name`, `code` and
`message` (covering `MongoError` / `MongoServerError` / `BulkWriteError` and
any other foreign error object), or an instance of the library's own
`SluggerError` class (src/lib/slugger.ts, `class SluggerError extends Error`),
which carries only a message and whose `name` is the inherited `"Error"`. -/

inductive JsError where
  /-- A thrown error object with fields `name`, `code` (absent on many
      errors, hence `Option`) and `message`. -/
  | store (name : String) (code : Option Int) (message : String)
  /-- An instance of the library's `SluggerError` class. -/
  | sluggerError (message : String)
  deriving DecidableEq, Repr

/-- `isMongoError` (src/lib/sluggerUtils.ts): checks that the thrown value is
an object whose `name` is one of `MongoError`, `BulkWriteError`,
`MongoServerError`.  A `SluggerError` has name `"Error"` and never passes. -/
def isMongoError : JsError → Bool
  | .store name _ _ => ["MongoError", "BulkWriteError", "MongoServerError"].contains name
  | .sluggerError _ => false

/-- The `code` field of a thrown value (`SluggerError` has none). -/
def JsError.code : JsError → Option Int
  | .store _ c _ => c
  | .sluggerError _ => none

/-- The `message` field of a thrown value. -/
def JsError.message : JsError → String
  | .store _ _ m => m
  | .sluggerError m => m

/-! ## Index-name extraction

`extractIndexNameFromError` (src/lib/sluggerUtils.ts) runs the JS regex
`/index: (.+) dup key:/` via `exec` and returns the first capture group.
JS regex semantics: the match starts at the leftmost possible position; `.`
matches every character except a newline; `(.+)` is greedy, so the capture
extends to the last position (within the newline-free region) at which the
literal ` dup key:` still matches. -/

/-- Greedy search for the capture end: try capture lengths `k, k-1, ..., 1`
and return the longest newline-free capture that is followed by the literal
` dup key:`. -/
def greedyCapture (after : List Char) : Nat → Option (List Char)
  | 0 => none
  | k + 1 =>
    let cand := after.take (k + 1)
    if cand.all (fun c => c ≠ '\n') ∧ (after.drop (k + 1)).take 9 = " dup key:".data then
      some cand
    else
      greedyCapture after k

/-- Scan for the leftmost start position where `index: ` matches and a greedy
capture followed by ` dup key:` completes. -/
def execIndexRegex : List Char → Option (List Char)
  | [] => none
  | c :: cs =>
    if (c :: cs).take 7 = "index: ".data then
      match greedyCapture ((c :: cs).drop 7) ((c :: cs).drop 7).length with
      | some cap => some cap
      | none => execIndexRegex cs
    else
      execIndexRegex cs

/-- `extractIndexNameFromError` (src/lib/sluggerUtils.ts):
`const matches = /index: (.+) dup key:/.exec(msg); return matches ? matches[1] : undefined;` -/
def extractIndexNameFromError (msg : String) : Option String :=
  (execIndexRegex msg.data).map (fun cs => String.mk cs)

/-! ## Options -/

/-- The fields of `SluggerOptions` used by the orchestrator
(src/lib/slugger.ts).  The generator function is passed separately (already
specialized to the document's generation-source fields and the effective
maximum length, which the plugin always supplies).  `maxAttempts` is `none`
when the option was not given. -/
structure SluggerOptions where
  index : String
  maxAttempts : Option Nat
  deriving Repr

/-! ## Documents, attachment and the pre-validate hook -/

/-- `SlugDocumentAttachment` (src/lib/sluggerUtils.ts): the per-document
attempt tracker, holding the ordered list of previously attempted slugs. -/
structure SlugDocumentAttachment where
  slugAttempts : List String := []
  deriving DecidableEq, Repr

/-- The modelled document state: the value at `slugPath` (`none` models
`null`/`undefined`) and the optional attempt tracker stored at the
symbol-keyed property `attachmentPropertyName`. -/
structure DocState where
  slug : Option String
  attachment : Option SlugDocumentAttachment
  deriving DecidableEq, Repr

/-- The `schema.pre('validate', ...)` hook installed by `plugin`
(src/lib/slugger.ts, lines 180–192):

```
let slugAttachment = this[utils.attachmentPropertyName];
if (!slugAttachment && this.get(options.slugPath) == null) {
  slugAttachment = new utils.SlugDocumentAttachment();
  this[utils.attachmentPropertyName] = slugAttachment;
}
if (slugAttachment) {
  this.set(options.slugPath, options.generator(this, slugAttachment.slugAttempts.length, maxlength));
}
```

`gen n` is `options.generator(this, n, maxlength)` specialized to this
document's generation-source fields. -/
def preValidateHook (gen : Nat → String) (doc : DocState) : DocState :=
  let slugAttachment :=
    if doc.attachment.isNone ∧ doc.slug = none then
      some { slugAttempts := [] }
    else
      doc.attachment
  match slugAttachment with
  | some att => { slug := some (gen att.slugAttempts.length), attachment := some att }
  | none => doc

/-! ## The save-retry orchestrator -/

/-- Outcome of one iteration of the `for (;;)` loop in `saveSlugWithRetries`:
the function returns the saved document, throws an error, or `continue`s with
the updated document state. -/
inductive StepResult where
  | done (doc : DocState)
  | failed (e : JsError)
  | retry (doc : DocState)
  deriving DecidableEq, Repr

/-- The message of the duplicate-generation (`Already attempted …`) error
(src/lib/sluggerUtils.ts, lines 67–69). -/
def dupGenerationMessage (attemptedSlug : String) (attemptCount : Nat) : String :=
  "Already attempted slug '" ++ attemptedSlug ++ "' " ++ Nat.repr attemptCount ++
    " times before. Giving up."

/-- The message of the exhausted-attempts (`Reached …`) error
(src/lib/sluggerUtils.ts, lines 75–77). -/
def maxAttemptsMessage (attempts : Nat) : String :=
  "Reached " ++ Nat.repr attempts ++ " attempts without being able to insert. Giving up."

/-- One iteration of the loop body of `saveSlugWithRetries`
(src/lib/sluggerUtils.ts, lines 48–86).  The delegated save call first runs
the pre-validate hook (mongoose runs it as part of `save`) and then submits
the document to the store; `storeError` is the store's response for this
submission (`none` = success).

```
try {
  const saveFunction = document[delegatedSaveFunction] || document.save;
  return await saveFunction.call(document, saveOptions);
} catch (e) {
  if (isMongoError(e)) {
    const slugAttachment = document[attachmentPropertyName];
    if (slugAttachment && e.code === 11000 && e.message &&
        extractIndexNameFromError(e.message) === sluggerOptions.index) {
      const slugPath = sluggerOptions.slugPath ?? defaultSlugPath;
      const attemptedSlug = document.get(slugPath);
      const attemptCount = slugAttachment.slugAttempts.filter(slug => slug === attemptedSlug).length;
      if (attemptCount >= 3) { throw new SluggerError(...); }
      slugAttachment.slugAttempts.push(attemptedSlug);
      if (sluggerOptions.maxAttempts && slugAttachment.slugAttempts.length >= sluggerOptions.maxAttempts) {
        throw new SluggerError(...);
      }
      continue;
    }
  }
  throw e;
}
``` -/
def saveStep (opts : SluggerOptions) (gen : Nat → String)
    (storeError : Option JsError) (doc : DocState) : StepResult :=
  let doc' := preValidateHook gen doc
  match storeError with
  | none => .done doc'
  | some e =>
    if isMongoError e then
      match doc'.attachment with
      | some slugAttachment =>
        if e.code = some 11000 ∧ e.message ≠ "" ∧
            extractIndexNameFromError e.message = some opts.index then
          let attemptedSlug := (doc'.slug).getD ""
          let attemptCount := (slugAttachment.slugAttempts.filter
            (fun slug => slug = attemptedSlug)).length
          if attemptCount ≥ 3 then
            .failed (.sluggerError (dupGenerationMessage attemptedSlug attemptCount))
          else
            let slugAttempts' := slugAttachment.slugAttempts ++ [attemptedSlug]
            match opts.maxAttempts with
            | some maxAttempts =>
              if maxAttempts ≠ 0 ∧ slugAttempts'.length ≥ maxAttempts then
                .failed (.sluggerError (maxAttemptsMessage slugAttempts'.length))
              else
                .retry { doc' with attachment := some { slugAttempts := slugAttempts' } }
            | none =>
              .retry { doc' with attachment := some { slugAttempts := slugAttempts' } }
        else
          .failed e
      | none => .failed e
    else
      .failed e

/-- The full `saveSlugWithRetries` loop (src/lib/sluggerUtils.ts,
lines 43–87), with explicit fuel for the unbounded `for (;;)`.  The store is
a function from the submission number and the submitted slug value to the
optional thrown error.  Returns `none` if the fuel ran out, otherwise the
saved document or the thrown error. -/
def saveSlugWithRetries (opts : SluggerOptions) (gen : Nat → String)
    (store : Nat → Option String → Option JsError) :
    Nat → Nat → DocState → Option (Except JsError DocState)
  | 0, _, _ => none
  | fuel + 1, callNo, doc =>
    let doc' := preValidateHook gen doc
    match saveStep opts gen (store callNo doc'.slug) doc with
    | .done d => some (.ok d)
    | .failed e => some (.error e)
    | .retry d => saveSlugWithRetries opts gen store fuel (callNo + 1) d

/-- Observer of the same loop: the list of slug values submitted to the store,
in submission order (used to count how often a candidate is submitted). -/
def submittedSlugs (opts : SluggerOptions) (gen : Nat → String)
    (store : Nat → Option String → Option JsError) :
    Nat → Nat → DocState → List String
  | 0, _, _ => []
  | fuel + 1, callNo, doc =>
    let doc' := preValidateHook gen doc
    (doc'.slug).getD "" ::
      match saveStep opts gen (store callNo doc'.slug) doc with
      | .retry d => submittedSlugs opts gen store fuel (callNo + 1) d
      | _ => []

/-! ## The default generator -/

/-- JS `s.substring(0, e)` for a possibly "negative" bound: `Nat` subtraction
at the call site already clamps at `0` exactly as JS `substring` does. -/
def jsSubstringTo (s : String) (e : Nat) : String :=
  String.mk (s.data.take e)

/-- JS `s.replace(<dash-at-end regex>, '')`: removes a single trailing
hyphen, if any. -/
def stripTrailingHyphen (s : String) : String :=
  if s.data.getLast? = some '-' then String.mk s.data.dropLast else s

/-- The disambiguator suffix: `attempt > 0 ? `-${attempt + 1}` : ''`
(src/lib/sluggerUtils.ts, line 94). -/
def slugSuffix (attempt : Nat) : String :=
  if attempt > 0 then "-" ++ Nat.repr (attempt + 1) else ""

/-- The normalized body after optional truncation
(src/lib/sluggerUtils.ts, lines 95–101):

```
let trimmedSlug = slug;
if (typeof maxLength === 'number') {
  trimmedSlug = trimmedSlug.substring(0, maxLength - suffix.length).replace(<dash-at-end regex>, '');
}
``` -/
def trimmedSlugOf (norm : String → String) (values : List String)
    (attempt : Nat) (maxLength : Option Nat) : String :=
  let slug := norm (String.intercalate "-" values)
  match maxLength with
  | some maxLength => stripTrailingHyphen (jsSubstringTo slug (maxLength - (slugSuffix attempt).length))
  | none => slug

/-- `createDefaultGenerator` (src/lib/sluggerUtils.ts, lines 89–104),
specialized to a document: `values` are the values `doc.get(path)` of the
configured paths in declared order, and `norm` is the external `limaxFixed`
normalization.  Returns `trimmedSlug + suffix`. -/
def createDefaultGenerator (norm : String → String) (values : List String)
    (attempt : Nat) (maxLength : Option Nat) : String :=
  trimmedSlugOf norm values attempt maxLength ++ slugSuffix attempt

/-! ## Model wrapping (src/lib/slugger.ts, `wrap`) -/

/-- The identity of a save routine installed on the model prototype: either
mongoose's original `Model.prototype.save`, or the interception wrapper that
`wrap` installs. -/
inductive SaveImpl where
  | original
  | wrapper
  deriving DecidableEq, Repr

/-- The relevant slots of the model prototype: the `save` property and the
symbol-keyed `delegatedSaveFunction` property. -/
structure ProtoState where
  save : SaveImpl
  delegated : Option SaveImpl
  deriving DecidableEq, Repr

/-- `wrap` (src/lib/slugger.ts, lines 206–235), restricted to its effect on
the prototype's save slots:

```
model.prototype[utils.delegatedSaveFunction] = model.prototype.save;
model.prototype.save = async function (options) { ... saveSlugWithRetries ... };
``` -/
def wrap (p : ProtoState) : ProtoState :=
  { save := .wrapper, delegated := some p.save }

/-- The save function the orchestrator's loop body selects on each iteration
(src/lib/sluggerUtils.ts, line 51):
`const saveFunction = document[delegatedSaveFunction] || document.save;` -/
def chosenSaveFunction (p : ProtoState) : SaveImpl :=
  p.delegated.getD p.save

/-! ## The wrapped save override (src/lib/slugger.ts, lines 221–232) -/

/-- The single argument of a call to the overridden `save`: either a
`SaveOptions` object, a completion callback, or nothing. -/
inductive SaveCallArg where
  | noArg
  | options
  | callback
  deriving DecidableEq, Repr

/-- The observable outcome of a call to the overridden `save`: the settled
value of the returned promise (the override is an `async function`, so a
promise is always returned) and the list of error arguments of all
invocations of the supplied callback performed by the override. -/
structure SaveCallOutcome where
  promise : Option (Except JsError DocState)
  callbackErrorCalls : List (Option JsError)
  deriving Repr

/-- The overridden `model.prototype.save` installed by `wrap`
(src/lib/slugger.ts, lines 221–232):

```
model.prototype.save = async function (options?: SaveOptions) {
  if (!hasCheckedMongoDB) { await utils.checkMongoDB(model.db.db); hasCheckedMongoDB = true; }
  return utils.saveSlugWithRetries(this, sluggerOptions, options);
};
```

The function body never inspects whether its argument is a function: the
argument is forwarded unmodified to `saveSlugWithRetries` as the save
options, which hands it to every delegated save call
(`saveFunction.call(document, saveOptions)`), and no callback is ever
invoked by the override.  Since the save options reach the underlying store,
the store model is a family indexed by the forwarded argument (`store arg`
is the store's behaviour under those save options — e.g. options like
`validateBeforeSave: false`, or a function argument handed to the delegated
save, change what the store call does).  The MongoDB version check is an
external collaborator and does not affect the save outcome on a supported
store. -/
def wrappedSave (opts : SluggerOptions) (gen : Nat → String)
    (store : SaveCallArg → Nat → Option String → Option JsError) (fuel : Nat)
    (doc : DocState) (arg : SaveCallArg) : SaveCallOutcome :=
  { promise := saveSlugWithRetries opts gen (store arg) fuel 0 doc
    callbackErrorCalls := [] }

/-! ## Derived notions used by the statements -/

/-- The number of occurrences of `v` among the attempted slugs, written the
way the source counts them: `slugAttempts.filter(slug => slug === v).length`. -/
def countAttempts (v : String) (l : List String) : Nat :=
  (l.filter (fun slug => slug = v)).length

/-- The attempted-slug history carried by a document (empty when no tracker
is attached). -/
def attachmentSlugs (doc : DocState) : List String :=
  match doc.attachment with
  | some att => att.slugAttempts
  | none => []

/-- The error classification of the spec: the write failure is a store
duplicate-key error on the configured index and an attempt tracker is
attached to the document.  `doc` is the document state at catch time (after
the pre-validate hook ran). -/
def RetryableConflict (opts : SluggerOptions) (doc : DocState) (e : JsError) : Prop :=
  doc.attachment.isSome = true ∧ isMongoError e = true ∧ e.code = some 11000 ∧
    e.message ≠ "" ∧ extractIndexNameFromError e.message = some opts.index

instance (opts : SluggerOptions) (doc : DocState) (e : JsError) :
    Decidable (RetryableConflict opts doc e) := by
  unfold RetryableConflict; infer_instance

/-- The configured-attempt-bound guard of the orchestrator, for an attempt
history that would have `n` entries after the push: truthy `maxAttempts`
with `slugAttempts.length >= maxAttempts`. -/
def MaxAttemptsReached (opts : SluggerOptions) (n : Nat) : Prop :=
  match opts.maxAttempts with
  | some m => m ≠ 0 ∧ m ≤ n
  | none => False

instance (opts : SluggerOptions) (n : Nat) : Decidable (MaxAttemptsReached opts n) := by
  unfold MaxAttemptsReached; cases opts.maxAttempts <;> simp <;> infer_instance

/-- Whether a character list contains two consecutive hyphens. -/
def hasDoubleHyphen : List Char → Bool
  | [] => false
  | [_] => false
  | a :: b :: rest => (a == '-' && b == '-') || hasDoubleHyphen (b :: rest)

/-- Numeric value of a decimal digit character. -/
def charVal (c : Char) : Nat := c.toNat - 48

/-- Decimal value of a digit-character list (most significant first). -/
def digitsVal (l : List Char) : Nat :=
  l.foldl (fun a c => 10 * a + charVal c) 0

end Slugger

namespace Slugger

-- Sanity checks of the embedding on concrete inputs (mirroring the
-- repository's own unit tests in src/test/slugger.test.ts).

example : extractIndexNameFromError
    "E11000 duplicate key error collection: slugger-test.slugmodels index: city_country_slug dup key: rest" =
    some "city_country_slug" := by decide

example : extractIndexNameFromError "foo" = none := by decide

example :
    createDefaultGenerator (fun s => s) ["john", "doe"] 0 none = "john-doe" := by decide

example :
    createDefaultGenerator (fun s => s) ["john", "doe"] 1 none = "john-doe-2" := by decide

example :
    createDefaultGenerator (fun s => s) ["salvador-felipe-jacinto-dali-y-domenech"] 0 (some 25) =
      "salvador-felipe-jacinto-d" := by decide

example :
    createDefaultGenerator (fun s => s) ["x"] 1 (some 1) = "-2" := by decide

example : dupGenerationMessage "john-doe" 3 =
    "Already attempted slug 'john-doe' 3 times before. Giving up." := by decide

end Slugger

namespace Slugger

/-! ## Facts about the pre-validate hook -/

theorem preValidateHook_attached (gen : Nat → String) (doc : DocState)
    (att : SlugDocumentAttachment) (h : doc.attachment = some att) :
    preValidateHook gen doc =
      { slug := some (gen att.slugAttempts.length), attachment := some att } := by
  simp [preValidateHook, h]

theorem preValidateHook_explicit (gen : Nat → String) (doc : DocState) (s : String)
    (hA : doc.attachment = none) (hS : doc.slug = some s) :
    preValidateHook gen doc = doc := by
  simp [preValidateHook, hA, hS]

theorem preValidateHook_fresh (gen : Nat → String) (doc : DocState)
    (hA : doc.attachment = none) (hS : doc.slug = none) :
    preValidateHook gen doc =
      { slug := some (gen 0), attachment := some { slugAttempts := [] } } := by
  simp [preValidateHook, hA, hS]

theorem attachmentSlugs_preValidateHook (gen : Nat → String) (doc : DocState) :
    attachmentSlugs (preValidateHook gen doc) = attachmentSlugs doc := by
  unfold preValidateHook attachmentSlugs
  cases hA : doc.attachment <;> cases hS : doc.slug <;> simp [hA, hS]

/-- When the document carries no tracker and a non-null slug, one loop
iteration neither generates nor retries: the outcome is decided by the single
store response, and a thrown error propagates unchanged. -/
theorem saveStep_explicit (opts : SluggerOptions) (gen : Nat → String)
    (se : Option JsError) (doc : DocState) (s : String)
    (hS : doc.slug = some s) (hA : doc.attachment = none) :
    saveStep opts gen se doc =
      match se with
      | none => .done doc
      | some e => .failed e := by
  have hhook : preValidateHook gen doc = doc := preValidateHook_explicit gen doc s hA hS
  unfold saveStep
  rw [hhook]
  cases se with
  | none => rfl
  | some e =>
    cases hM : isMongoError e <;> simp [hM, hA]

/-- C4: a document with an explicit (non-null) slug value and no attempt
tracker is saved without any generator invocation (the run does not depend on
the generator), without its slug value being overwritten, and without any
retry: the outcome of the save call equals the store's first response, and
any store error — a uniqueness conflict on the configured index included —
propagates unchanged. -/
theorem explicit_slug_passthrough (opts : SluggerOptions) (gen gen' : Nat → String)
    (store : Nat → Option String → Option JsError) (fuel callNo : Nat)
    (doc : DocState) (s : String)
    (hS : doc.slug = some s) (hA : doc.attachment = none) (hFuel : 1 ≤ fuel) :
    preValidateHook gen doc = doc ∧
    saveSlugWithRetries opts gen store fuel callNo doc =
      saveSlugWithRetries opts gen' store fuel callNo doc ∧
    saveSlugWithRetries opts gen store fuel callNo doc =
      some (match store callNo (some s) with
        | none => .ok doc
        | some e => .error e) := by
  obtain ⟨f, rfl⟩ : ∃ f, fuel = f + 1 := ⟨fuel - 1, by omega⟩
  have hrun : ∀ g : Nat → String,
      saveSlugWithRetries opts g store (f + 1) callNo doc =
        some (match store callNo (some s) with
          | none => .ok doc
          | some e => .error e) := by
    intro g
    have hhook : preValidateHook g doc = doc := preValidateHook_explicit g doc s hA hS
    have hstep := saveStep_explicit opts g (store callNo (some s)) doc s hS hA
    unfold saveSlugWithRetries
    rw [hhook]
    simp only [hS, hstep]
    cases store callNo (some s) <;> rfl
  exact ⟨preValidateHook_explicit gen doc s hA hS, (hrun gen).trans (hrun gen').symm, hrun gen⟩

/-- Witness for `explicit_slug_passthrough`: a pre-populated slug collides on
the configured index and the conflict still propagates as an ordinary error. -/
theorem explicit_slug_passthrough_witness :
    (⟨some "explicit", none⟩ : DocState).slug = some "explicit" ∧
    (⟨some "explicit", none⟩ : DocState).attachment = none ∧
    1 ≤ 1 ∧
    (preValidateHook (fun _ => "g") ⟨some "explicit", none⟩ = ⟨some "explicit", none⟩ ∧
     saveSlugWithRetries ⟨"idx", none⟩ (fun _ => "g")
        (fun _ _ => some (.store "MongoError" (some 11000) "index: idx dup key: x")) 1 0
        ⟨some "explicit", none⟩ =
      saveSlugWithRetries ⟨"idx", none⟩ (fun _ => "h")
        (fun _ _ => some (.store "MongoError" (some 11000) "index: idx dup key: x")) 1 0
        ⟨some "explicit", none⟩ ∧
     saveSlugWithRetries ⟨"idx", none⟩ (fun _ => "g")
        (fun _ _ => some (.store "MongoError" (some 11000) "index: idx dup key: x")) 1 0
        ⟨some "explicit", none⟩ =
      some (match (fun (_ : Nat) (_ : Option String) =>
          some (JsError.store "MongoError" (some 11000) "index: idx dup key: x")) 0 (some "explicit") with
        | none => .ok (⟨some "explicit", none⟩ : DocState)
        | some e => .error e)) :=
  ⟨rfl, rfl, le_refl 1,
    explicit_slug_passthrough ⟨"idx", none⟩ (fun _ => "g") (fun _ => "h")
      (fun _ _ => some (.store "MongoError" (some 11000) "index: idx dup key: x")) 1 0
      ⟨some "explicit", none⟩ "explicit" rfl rfl (le_refl 1)⟩

/-! ## C7: wrapping delegates to the original save -/

/-- C7: after wrapping, the save function the orchestrator's loop body selects
(`document[delegatedSaveFunction] || document.save`) is exactly the original
persistence routine captured at wrap time, and — provided the model was not
already wrapped — it is never the interception wrapper, so no iteration
re-enters the wrapper. -/
theorem wrap_delegates_to_original (p : ProtoState) :
    chosenSaveFunction (wrap p) = p.save ∧
    (p.save ≠ SaveImpl.wrapper → chosenSaveFunction (wrap p) ≠ SaveImpl.wrapper) := by
  refine ⟨rfl, fun h => ?_⟩
  simpa [chosenSaveFunction, wrap] using h

/-- Witness for `wrap_delegates_to_original` at the unwrapped prototype. -/
theorem wrap_delegates_to_original_witness :
    chosenSaveFunction (wrap ⟨SaveImpl.original, none⟩) = SaveImpl.original ∧
    chosenSaveFunction (wrap ⟨SaveImpl.original, none⟩) ≠ SaveImpl.wrapper :=
  ⟨(wrap_delegates_to_original ⟨SaveImpl.original, none⟩).1,
   (wrap_delegates_to_original ⟨SaveImpl.original, none⟩).2 (by decide)⟩

/-! ## C8: the attempt tracker survives the save cycle -/

/-- Counterexample to C8: after a successful save the tracker is still
attached to the document instance; a subsequent save of that instance whose
slug field now holds the non-null value `"custom"` does not take the
explicit-value path — the hook re-invokes the generator and overwrites the
slug with the regenerated value `"0"`. -/
theorem tracker_outlives_cycle_counterexample :
    saveSlugWithRetries ⟨"idx", none⟩ (fun n => Nat.repr n) (fun _ _ => none) 1 0
        ⟨none, none⟩ = some (.ok ⟨some "0", some ⟨[]⟩⟩) ∧
    preValidateHook (fun n => Nat.repr n) ⟨some "custom", some ⟨[]⟩⟩ =
      ⟨some "0", some ⟨[]⟩⟩ ∧
    saveSlugWithRetries ⟨"idx", none⟩ (fun n => Nat.repr n) (fun _ _ => none) 1 0
        ⟨some "custom", some ⟨[]⟩⟩ = some (.ok ⟨some "0", some ⟨[]⟩⟩) :=
  ⟨rfl, rfl, rfl⟩

/-- C8 (amended): the attempt tracker is not destroyed when a save cycle
terminates — it stays attached to the document instance, and any later save
of that instance re-invokes the generator (at attempt index
`slugAttempts.length`) and overwrites the slug field, regardless of the slug
being non-null; the explicit-value behaviour occurs exactly when no tracker
is attached. -/
theorem tracker_persistence_amended (gen : Nat → String) (doc : DocState) :
    (∀ att, doc.attachment = some att →
      preValidateHook gen doc =
        { slug := some (gen att.slugAttempts.length), attachment := some att }) ∧
    (∀ s, doc.attachment = none → doc.slug = some s → preValidateHook gen doc = doc) :=
  ⟨fun att h => preValidateHook_attached gen doc att h,
   fun s hA hS => preValidateHook_explicit gen doc s hA hS⟩

/-- Witness for `tracker_persistence_amended`: a document that finished a
save cycle (tracker attached, slug non-null) is regenerated on the next save. -/
theorem tracker_persistence_amended_witness :
    (⟨some "custom", some ⟨["a"]⟩⟩ : DocState).attachment = some ⟨["a"]⟩ ∧
    preValidateHook (fun n => Nat.repr n) ⟨some "custom", some ⟨["a"]⟩⟩ =
      { slug := some (Nat.repr 1), attachment := some ⟨["a"]⟩ } :=
  ⟨rfl, (tracker_persistence_amended (fun n => Nat.repr n) ⟨some "custom", some ⟨["a"]⟩⟩).1 ⟨["a"]⟩ rfl⟩

/-! ## C9: result channel of the wrapped save -/

/-- Counterexample to C9: the wrapped save invoked with a completion callback
does not deliver the save-time error through the callback — the override
never calls it (`callbackErrorCalls = []`); the error surfaces only on the
returned promise. -/
theorem save_callback_counterexample :
    (wrappedSave ⟨"idx", none⟩ (fun _ => "s")
        (fun _ _ _ => some (.store "SomeError" none "boom"))
        1 ⟨none, none⟩ SaveCallArg.callback).callbackErrorCalls = [] ∧
    (wrappedSave ⟨"idx", none⟩ (fun _ => "s")
        (fun _ _ _ => some (.store "SomeError" none "boom"))
        1 ⟨none, none⟩ SaveCallArg.callback).promise =
      some (.error (.store "SomeError" none "boom")) :=
  ⟨rfl, rfl⟩

/-- C9 (amended): the wrapped save always returns an awaitable result — the
outcome of the retry orchestrator run against the store under the forwarded
argument (resolving on success, rejecting with the save-time error on
failure) — and performs no callback dispatch of its own: a supplied
completion callback is never invoked by the override, only forwarded as save
options to the delegated save. -/
theorem save_promise_channel_amended (opts : SluggerOptions) (gen : Nat → String)
    (store : SaveCallArg → Nat → Option String → Option JsError) (fuel : Nat)
    (doc : DocState) (arg : SaveCallArg) :
    (wrappedSave opts gen store fuel doc arg).promise =
      saveSlugWithRetries opts gen (store arg) fuel 0 doc ∧
    (wrappedSave opts gen store fuel doc arg).callbackErrorCalls = [] :=
  ⟨rfl, rfl⟩

end Slugger

namespace Slugger

/-! ## The conflict branch of the orchestrator, characterized -/

/-- Characterization of one loop iteration whose store write threw a
retryable duplicate-key error on the configured index while a tracker is
attached: give up with the duplicate-generation error when the attempted
value already occurs 3 or more times, otherwise push and give up with the
exhausted-attempts error when the configured bound is reached, otherwise
retry with the extended history. -/
theorem saveStep_conflict (opts : SluggerOptions) (gen : Nat → String) (e : JsError)
    (doc : DocState) (att : SlugDocumentAttachment) (v : String)
    (hAtt : (preValidateHook gen doc).attachment = some att)
    (hSlug : (preValidateHook gen doc).slug = some v)
    (hClass : isMongoError e = true) (hCode : e.code = some 11000)
    (hMsg : e.message ≠ "") (hIdx : extractIndexNameFromError e.message = some opts.index) :
    saveStep opts gen (some e) doc =
      (if 3 ≤ countAttempts v att.slugAttempts then
        StepResult.failed (.sluggerError (dupGenerationMessage v (countAttempts v att.slugAttempts)))
      else if MaxAttemptsReached opts (att.slugAttempts.length + 1) then
        StepResult.failed (.sluggerError (maxAttemptsMessage (att.slugAttempts.length + 1)))
      else
        StepResult.retry
          { preValidateHook gen doc with
            attachment := some { slugAttempts := att.slugAttempts ++ [v] } }) := by
  unfold saveStep
  simp only [hAtt, hSlug, hClass, Option.getD_some, if_true]
  rw [if_pos ⟨hCode, hMsg, hIdx⟩]
  simp only [countAttempts, ge_iff_le]
  by_cases h3 : 3 ≤ (List.filter (fun slug => decide (slug = v)) att.slugAttempts).length
  · simp only [if_pos h3]
  · simp only [if_neg h3]
    cases hM : opts.maxAttempts with
    | none =>
      simp [MaxAttemptsReached, hM]
    | some m =>
      simp only [MaxAttemptsReached, hM, List.length_append, List.length_cons,
        List.length_nil, Nat.zero_add, ge_iff_le]

/-- C2: when a retryable uniqueness conflict on the configured index occurs
and the just-attempted slug value already appears 3 or more times in the
tracker's history, the orchestrator gives up instead of retrying, raising
the domain-specific duplicate-generation error whose message names the
repeated slug value and the repeat count. -/
theorem duplicate_generation_gives_up (opts : SluggerOptions) (gen : Nat → String)
    (e : JsError) (doc : DocState) (att : SlugDocumentAttachment) (v : String)
    (hAtt : (preValidateHook gen doc).attachment = some att)
    (hSlug : (preValidateHook gen doc).slug = some v)
    (hClass : isMongoError e = true) (hCode : e.code = some 11000)
    (hMsg : e.message ≠ "") (hIdx : extractIndexNameFromError e.message = some opts.index)
    (h3 : 3 ≤ countAttempts v att.slugAttempts) :
    saveStep opts gen (some e) doc =
      StepResult.failed (.sluggerError (dupGenerationMessage v (countAttempts v att.slugAttempts))) ∧
    dupGenerationMessage v (countAttempts v att.slugAttempts) =
      "Already attempted slug '" ++ v ++ "' " ++
        Nat.repr (countAttempts v att.slugAttempts) ++ " times before. Giving up." := by
  refine ⟨?_, rfl⟩
  rw [saveStep_conflict opts gen e doc att v hAtt hSlug hClass hCode hMsg hIdx, if_pos h3]

/-- Witness for `duplicate_generation_gives_up`: the tracker already recorded
the value `"a"` three times and the generator produces `"a"` again. -/
theorem duplicate_generation_gives_up_witness :
    ((preValidateHook (fun _ => "a") ⟨some "x", some ⟨["a", "a", "a"]⟩⟩).attachment =
        some ⟨["a", "a", "a"]⟩ ∧
      (preValidateHook (fun _ => "a") ⟨some "x", some ⟨["a", "a", "a"]⟩⟩).slug = some "a" ∧
      isMongoError (.store "MongoError" (some 11000) "index: idx dup key: x") = true ∧
      (JsError.store "MongoError" (some 11000) "index: idx dup key: x").code = some 11000 ∧
      (JsError.store "MongoError" (some 11000) "index: idx dup key: x").message ≠ "" ∧
      extractIndexNameFromError
        (JsError.store "MongoError" (some 11000) "index: idx dup key: x").message =
        some (SluggerOptions.mk "idx" none).index ∧
      3 ≤ countAttempts "a" (SlugDocumentAttachment.mk ["a", "a", "a"]).slugAttempts) ∧
    saveStep ⟨"idx", none⟩ (fun _ => "a")
        (some (.store "MongoError" (some 11000) "index: idx dup key: x"))
        ⟨some "x", some ⟨["a", "a", "a"]⟩⟩ =
      StepResult.failed (.sluggerError (dupGenerationMessage "a"
        (countAttempts "a" (SlugDocumentAttachment.mk ["a", "a", "a"]).slugAttempts))) :=
  ⟨⟨by decide, by decide, by decide, by decide, by decide, by decide, by decide⟩,
    (duplicate_generation_gives_up ⟨"idx", none⟩ (fun _ => "a")
      (.store "MongoError" (some 11000) "index: idx dup key: x")
      ⟨some "x", some ⟨["a", "a", "a"]⟩⟩ ⟨["a", "a", "a"]⟩ "a"
      (by decide) (by decide) (by decide) (by decide) (by decide) (by decide) (by decide)).1⟩

/-! ## C1: classification of write failures -/

/-- A write failure that is not a retryable duplicate-key conflict on the
configured index (or hits a document without tracker) propagates as the
original error object, unchanged and without retry. -/
theorem saveStep_not_retryable (opts : SluggerOptions) (gen : Nat → String)
    (e : JsError) (doc : DocState)
    (h : ¬ RetryableConflict opts (preValidateHook gen doc) e) :
    saveStep opts gen (some e) doc = StepResult.failed e := by
  unfold saveStep
  cases hM : isMongoError e with
  | false => simp [hM]
  | true =>
    cases hAtt : (preValidateHook gen doc).attachment with
    | none => simp [hM, hAtt]
    | some att =>
      have hcond : ¬ (e.code = some 11000 ∧ e.message ≠ "" ∧
          extractIndexNameFromError e.message = some opts.index) := by
        intro hc
        exact h ⟨by simp [hAtt], hM, hc.1, hc.2.1, hc.2.2⟩
      simp only [hM, hAtt, if_true]
      rw [if_neg hcond]

/-- Counterexample to C1 as stated: a duplicate-key error on the configured
index with a tracker attached (the retryable class) is *not* retried when the
attempted value already occurred three times — the orchestrator raises a new
`SluggerError` instead, so neither "retries" nor "original error propagates
unchanged" holds for this input. -/
theorem conflict_classification_counterexample :
    RetryableConflict ⟨"idx", none⟩
      (preValidateHook (fun _ => "a") ⟨some "x", some ⟨["a", "a", "a"]⟩⟩)
      (.store "MongoError" (some 11000) "index: idx dup key: x") ∧
    saveStep ⟨"idx", none⟩ (fun _ => "a")
        (some (.store "MongoError" (some 11000) "index: idx dup key: x"))
        ⟨some "x", some ⟨["a", "a", "a"]⟩⟩ =
      StepResult.failed (.sluggerError (dupGenerationMessage "a" 3)) ∧
    StepResult.failed (JsError.sluggerError (dupGenerationMessage "a" 3)) ≠
      StepResult.failed (.store "MongoError" (some 11000) "index: idx dup key: x") :=
  ⟨by decide, by decide, by decide⟩

/-- C1 (amended): a write failure leads to a retry if and only if it is a
retryable duplicate-key conflict on the configured index with a tracker
attached *and* neither give-up guard fires (the attempted value occurs fewer
than 3 times in the history, and the configured `maxAttempts` bound is not
reached by the push); every failure outside the retryable class propagates
as the original error object, unchanged. -/
theorem conflict_classification_amended (opts : SluggerOptions) (gen : Nat → String)
    (e : JsError) (doc : DocState) :
    (¬ RetryableConflict opts (preValidateHook gen doc) e →
      saveStep opts gen (some e) doc = StepResult.failed e) ∧
    (∀ att v, (preValidateHook gen doc).attachment = some att →
      (preValidateHook gen doc).slug = some v →
      ((∃ d, saveStep opts gen (some e) doc = StepResult.retry d) ↔
        RetryableConflict opts (preValidateHook gen doc) e ∧
          countAttempts v att.slugAttempts < 3 ∧
          ¬ MaxAttemptsReached opts (att.slugAttempts.length + 1))) := by
  refine ⟨saveStep_not_retryable opts gen e doc, fun att v hAtt hSlug => ?_⟩
  constructor
  · rintro ⟨d, hd⟩
    by_cases hRC : RetryableConflict opts (preValidateHook gen doc) e
    · obtain ⟨-, hClass, hCode, hMsg, hIdx⟩ := hRC
      rw [saveStep_conflict opts gen e doc att v hAtt hSlug hClass hCode hMsg hIdx] at hd
      by_cases h3 : 3 ≤ countAttempts v att.slugAttempts
      · rw [if_pos h3] at hd; cases hd
      · rw [if_neg h3] at hd
        by_cases hMax : MaxAttemptsReached opts (att.slugAttempts.length + 1)
        · rw [if_pos hMax] at hd; cases hd
        · exact ⟨⟨by simp [hAtt], ‹_›, hCode, hMsg, hIdx⟩, by omega, hMax⟩
    · rw [saveStep_not_retryable opts gen e doc hRC] at hd; cases hd
  · rintro ⟨⟨-, hClass, hCode, hMsg, hIdx⟩, h3, hMax⟩
    refine ⟨{ preValidateHook gen doc with
      attachment := some { slugAttempts := att.slugAttempts ++ [v] } }, ?_⟩
    rw [saveStep_conflict opts gen e doc att v hAtt hSlug hClass hCode hMsg hIdx,
      if_neg (by omega), if_neg hMax]

/-- Witness for `conflict_classification_amended`: with an empty history and
no `maxAttempts`, a duplicate-key conflict on the configured index is
retried. -/
theorem conflict_classification_amended_witness :
    ∃ d, saveStep ⟨"idx", none⟩ (fun _ => "a")
        (some (.store "MongoError" (some 11000) "index: idx dup key: x"))
        ⟨none, none⟩ = StepResult.retry d :=
  ((conflict_classification_amended ⟨"idx", none⟩ (fun _ => "a")
      (.store "MongoError" (some 11000) "index: idx dup key: x") ⟨none, none⟩).2
    ⟨[]⟩ "a" (by decide) (by decide)).mpr
    ⟨⟨by decide, by decide, by decide, by decide, by decide⟩, by decide, by decide⟩

end Slugger

namespace Slugger

/-! ## C5: maximum length and separator handling of the default generator -/

theorem length_jsSubstringTo (s : String) (e : Nat) : (jsSubstringTo s e).length ≤ e := by
  show (s.data.take e).length ≤ e
  rw [List.length_take]
  exact min_le_left _ _

theorem length_stripTrailingHyphen (s : String) :
    (stripTrailingHyphen s).length ≤ s.length := by
  unfold stripTrailingHyphen
  split_ifs
  · show s.data.dropLast.length ≤ s.data.length
    rw [List.length_dropLast]
    omega
  · exact le_refl _

theorem data_stripTrailingHyphen (s : String) :
    (stripTrailingHyphen s).data =
      if s.data.getLast? = some '-' then s.data.dropLast else s.data := by
  unfold stripTrailingHyphen
  split_ifs <;> rfl

theorem hasDoubleHyphen_take (l : List Char) (n : Nat)
    (h : hasDoubleHyphen l = false) : hasDoubleHyphen (l.take n) = false := by
  induction l generalizing n with
  | nil => cases n <;> rfl
  | cons a tail ih =>
    cases n with
    | zero => rfl
    | succ n =>
      cases tail with
      | nil =>
        rw [List.take_succ_cons, List.take_nil]
        exact h
      | cons b rest =>
        have hsplit : ((a == '-' && b == '-') || hasDoubleHyphen (b :: rest)) = false := h
        rw [Bool.or_eq_false_iff] at hsplit
        cases n with
        | zero => rfl
        | succ m =>
          show hasDoubleHyphen (a :: b :: rest.take m) = false
          have heq : hasDoubleHyphen (a :: b :: rest.take m) =
              ((a == '-' && b == '-') || hasDoubleHyphen (b :: rest.take m)) := rfl
          rw [heq, Bool.or_eq_false_iff]
          refine ⟨hsplit.1, ?_⟩
          have := ih (n := m + 1) hsplit.2
          rwa [List.take_succ_cons] at this

theorem getLast?_strip_ne (l : List Char) (h : hasDoubleHyphen l = false) :
    (if l.getLast? = some '-' then l.dropLast else l).getLast? ≠ some '-' := by
  induction l with
  | nil => simp
  | cons a tail ih =>
    cases tail with
    | nil =>
      by_cases ha : a = '-'
      · subst ha
        simp [List.getLast?_singleton]
      · simp [List.getLast?_singleton, ha]
    | cons b rest =>
      have hsplit : ((a == '-' && b == '-') || hasDoubleHyphen (b :: rest)) = false := h
      rw [Bool.or_eq_false_iff] at hsplit
      have ihA := ih hsplit.2
      rw [show (a :: b :: rest).getLast? = (b :: rest).getLast? from List.getLast?_cons_cons]
      by_cases hend : (b :: rest).getLast? = some '-'
      · rw [if_pos hend]
        rw [if_pos hend] at ihA
        show (a :: (b :: rest).dropLast).getLast? ≠ some '-'
        cases hx : (b :: rest).dropLast with
        | nil =>
          cases rest with
          | nil =>
            have hb : b = '-' := by simpa [List.getLast?_singleton] using hend
            have ha : a ≠ '-' := by
              intro haeq
              have h1 := hsplit.1
              rw [haeq, hb] at h1
              simp at h1
            simpa [List.getLast?_singleton] using ha
          | cons c cs => simp at hx
        | cons x xs =>
          rw [List.getLast?_cons_cons]
          rw [hx] at ihA
          exact ihA
      · rw [if_neg hend]
        rw [List.getLast?_cons_cons]
        exact hend

/-- Counterexample to C5 as stated: with `maxLength = 1` and attempt index 1
the truncated body is empty but the suffix `"-2"` is still appended, so the
generated slug has length 2 > 1. -/
theorem default_generator_maxLength_counterexample :
    createDefaultGenerator (fun s => s) ["x"] 1 (some 1) = "-2" ∧
    ¬ ((createDefaultGenerator (fun s => s) ["x"] 1 (some 1)).length ≤ 1) :=
  ⟨by decide, by decide⟩

/-- C5 (amended): whenever the supplied `maxLength` is at least the length of
the disambiguator suffix, the generated slug (truncated body plus suffix) has
length at most `maxLength`; and — under the normalization contract that the
normalized body never contains two consecutive separators, as the limax
normalizer guarantees — the truncated body never ends in a separator, so
there is no trailing separator at attempt 0 and no double separator before
the suffix at attempt > 0. -/
theorem default_generator_respects_maxLength_amended
    (norm : String → String) (values : List String) (attempt m : Nat)
    (hSuffix : (slugSuffix attempt).length ≤ m)
    (hNoDouble : hasDoubleHyphen (norm (String.intercalate "-" values)).data = false) :
    (createDefaultGenerator norm values attempt (some m)).length ≤ m ∧
    (trimmedSlugOf norm values attempt (some m)).data.getLast? ≠ some '-' := by
  constructor
  · show (trimmedSlugOf norm values attempt (some m) ++ slugSuffix attempt).length ≤ m
    rw [String.length_append]
    have h1 : (trimmedSlugOf norm values attempt (some m)).length ≤
        m - (slugSuffix attempt).length :=
      le_trans (length_stripTrailingHyphen _) (length_jsSubstringTo _ _)
    omega
  · show (stripTrailingHyphen (jsSubstringTo (norm (String.intercalate "-" values))
      (m - (slugSuffix attempt).length))).data.getLast? ≠ some '-'
    rw [data_stripTrailingHyphen]
    exact getLast?_strip_ne _ (hasDoubleHyphen_take _ _ hNoDouble)

/-- Witness for `default_generator_respects_maxLength_amended` at
`maxLength = 25`, attempt 1. -/
theorem default_generator_respects_maxLength_amended_witness :
    ((slugSuffix 1).length ≤ 25 ∧
      hasDoubleHyphen ((fun (s : String) => s) (String.intercalate "-" ["john", "doe"])).data = false) ∧
    ((createDefaultGenerator (fun s => s) ["john", "doe"] 1 (some 25)).length ≤ 25 ∧
      (trimmedSlugOf (fun s => s) ["john", "doe"] 1 (some 25)).data.getLast? ≠ some '-') :=
  ⟨⟨by decide, by decide⟩,
    default_generator_respects_maxLength_amended (fun s => s) ["john", "doe"] 1 25
      (by decide) (by decide)⟩

end Slugger

namespace Slugger

/-! ## C6: distinctness of generated slugs across attempt indices

The disambiguator uses the decimal representation of `attempt + 1`
(`Nat.repr`); the following round-trip through `digitsVal` shows `Nat.repr`
is injective. -/

theorem foldl_digits_shift (l : List Char) (a : Nat) :
    l.foldl (fun x c => 10 * x + charVal c) a = a * 10 ^ l.length + digitsVal l := by
  induction l generalizing a with
  | nil => simp [digitsVal]
  | cons c cs ih =>
    show cs.foldl _ (10 * a + charVal c) = _
    rw [ih (10 * a + charVal c)]
    have hdv : digitsVal (c :: cs) = charVal c * 10 ^ cs.length + digitsVal cs := by
      show cs.foldl _ (10 * 0 + charVal c) = _
      rw [ih (10 * 0 + charVal c)]
      ring
    rw [hdv, List.length_cons]
    ring

theorem charVal_digitChar (d : Nat) (h : d < 10) :
    charVal (Nat.digitChar d) = d := by
  interval_cases d <;> decide

theorem toDigitsCore_val (f : Nat) : ∀ (n : Nat) (acc : List Char), n < f →
    digitsVal (Nat.toDigitsCore 10 f n acc) = n * 10 ^ acc.length + digitsVal acc := by
  induction f with
  | zero => exact fun n _ h => absurd h (Nat.not_lt_zero n)
  | succ f ih =>
    intro n acc h
    show digitsVal (if n / 10 = 0 then Nat.digitChar (n % 10) :: acc
      else Nat.toDigitsCore 10 f (n / 10) (Nat.digitChar (n % 10) :: acc)) = _
    have hdv : digitsVal (Nat.digitChar (n % 10) :: acc) =
        (n % 10) * 10 ^ acc.length + digitsVal acc := by
      show acc.foldl _ (10 * 0 + charVal (Nat.digitChar (n % 10))) = _
      rw [foldl_digits_shift, charVal_digitChar (n % 10) (Nat.mod_lt n (by norm_num))]
      ring
    by_cases hdiv : n / 10 = 0
    · rw [if_pos hdiv, hdv]
      have hn : n < 10 := by omega
      rw [Nat.mod_eq_of_lt hn]
    · rw [if_neg hdiv]
      have h10 : 10 ≤ n := by omega
      have hless : n / 10 < f := by omega
      rw [ih (n / 10) (Nat.digitChar (n % 10) :: acc) hless, hdv, List.length_cons]
      have hrw : n / 10 * 10 ^ (acc.length + 1) + (n % 10 * 10 ^ acc.length + digitsVal acc)
          = (10 * (n / 10) + n % 10) * 10 ^ acc.length + digitsVal acc := by ring
      rw [hrw, Nat.div_add_mod]

theorem digitsVal_repr (n : Nat) : digitsVal (Nat.repr n).data = n := by
  show digitsVal (Nat.toDigitsCore 10 (n + 1) n []) = n
  rw [toDigitsCore_val (n + 1) n [] (Nat.lt_succ_self n)]
  simp [digitsVal]

theorem reprNat_inj (m n : Nat) (h : Nat.repr m = Nat.repr n) : m = n := by
  have hv := congrArg (fun s => digitsVal s.data) h
  simpa [digitsVal_repr] using hv

theorem string_append_left_cancel (s t u : String) (h : s ++ t = s ++ u) : t = u := by
  apply String.ext
  have hd := congrArg String.data h
  rw [String.data_append, String.data_append] at hd
  exact List.append_cancel_left hd

/-- Distinctness of default-generator outputs for `j < k` (no `maxLength`). -/
theorem default_generator_lt_ne (norm : String → String) (values : List String)
    (j k : Nat) (hjk : j < k) :
    createDefaultGenerator norm values j none ≠ createDefaultGenerator norm values k none := by
  intro heq
  have hk : 0 < k := by omega
  by_cases hj : j = 0
  · subst hj
    have h0 : createDefaultGenerator norm values 0 none =
        trimmedSlugOf norm values 0 none ++ "" := rfl
    have hkk : createDefaultGenerator norm values k none =
        trimmedSlugOf norm values k none ++ ("-" ++ Nat.repr (k + 1)) := by
      show _ ++ slugSuffix k = _
      rw [show slugSuffix k = "-" ++ Nat.repr (k + 1) from if_pos hk]
    have hbody : trimmedSlugOf norm values 0 none = trimmedSlugOf norm values k none := rfl
    rw [h0, hkk, hbody] at heq
    have hlen := congrArg String.length heq
    rw [String.length_append, String.length_append, String.length_append] at hlen
    have hone : ("-" : String).length = 1 := rfl
    have hempty : ("" : String).length = 0 := rfl
    rw [hone, hempty] at hlen
    omega
  · have hjpos : 0 < j := by omega
    have hja : createDefaultGenerator norm values j none =
        trimmedSlugOf norm values j none ++ ("-" ++ Nat.repr (j + 1)) := by
      show _ ++ slugSuffix j = _
      rw [show slugSuffix j = "-" ++ Nat.repr (j + 1) from if_pos hjpos]
    have hka : createDefaultGenerator norm values k none =
        trimmedSlugOf norm values k none ++ ("-" ++ Nat.repr (k + 1)) := by
      show _ ++ slugSuffix k = _
      rw [show slugSuffix k = "-" ++ Nat.repr (k + 1) from if_pos hk]
    have hbody : trimmedSlugOf norm values j none = trimmedSlugOf norm values k none := rfl
    rw [hja, hka, hbody] at heq
    have h1 := string_append_left_cancel _ _ _ heq
    have h2 := string_append_left_cancel "-" _ _ h1
    have := reprNat_inj (j + 1) (k + 1) h2
    omega

/-- C6: without `maxLength` there is no truncation, and for a fixed document
the default generator is injective in the attempt index: attempt 0 yields the
normalized body, attempt `k > 0` yields the body followed by the separator
and the decimal disambiguator `k + 1`, and any two distinct attempt indices
yield distinct slugs. -/
theorem default_generator_attempts_distinct (norm : String → String) (values : List String) :
    (∀ j k : Nat, j ≠ k →
      createDefaultGenerator norm values j none ≠ createDefaultGenerator norm values k none) ∧
    createDefaultGenerator norm values 0 none = norm (String.intercalate "-" values) ∧
    (∀ k : Nat, 0 < k →
      createDefaultGenerator norm values k none =
        norm (String.intercalate "-" values) ++ ("-" ++ Nat.repr (k + 1))) := by
  refine ⟨fun j k hjk => ?_, ?_, fun k hk => ?_⟩
  · rcases Nat.lt_or_ge j k with hlt | hge
    · exact default_generator_lt_ne norm values j k hlt
    · have hlt : k < j := by omega
      exact fun heq => (default_generator_lt_ne norm values k j hlt) heq.symm
  · show trimmedSlugOf norm values 0 none ++ slugSuffix 0 = _
    rw [show slugSuffix 0 = "" from rfl, String.append_empty]
    rfl
  · show trimmedSlugOf norm values k none ++ slugSuffix k = _
    rw [show slugSuffix k = "-" ++ Nat.repr (k + 1) from if_pos hk]
    rfl

/-- Witness for `default_generator_attempts_distinct`: attempts 0 and 1
produce distinct slugs for a concrete document. -/
theorem default_generator_attempts_distinct_witness :
    (0 : Nat) ≠ 1 ∧
    createDefaultGenerator (fun s => s) ["a"] 0 none ≠
      createDefaultGenerator (fun s => s) ["a"] 1 none :=
  ⟨by decide,
    (default_generator_attempts_distinct (fun s => s) ["a"]).1 0 1 (by decide)⟩

end Slugger

namespace Slugger

/-! ## C10: the tracker never records a value more than 3 times, and a
candidate is submitted at most 4 times per save call -/

theorem saveStep_none (opts : SluggerOptions) (gen : Nat → String) (doc : DocState) :
    saveStep opts gen none doc = .done (preValidateHook gen doc) := rfl

theorem saveSlugWithRetries_succ (opts : SluggerOptions) (gen : Nat → String)
    (store : Nat → Option String → Option JsError) (fuel callNo : Nat) (doc : DocState) :
    saveSlugWithRetries opts gen store (fuel + 1) callNo doc =
      match saveStep opts gen (store callNo (preValidateHook gen doc).slug) doc with
      | .done d => some (.ok d)
      | .failed e => some (.error e)
      | .retry d => saveSlugWithRetries opts gen store fuel (callNo + 1) d := rfl

theorem submittedSlugs_succ (opts : SluggerOptions) (gen : Nat → String)
    (store : Nat → Option String → Option JsError) (fuel callNo : Nat) (doc : DocState) :
    submittedSlugs opts gen store (fuel + 1) callNo doc =
      ((preValidateHook gen doc).slug).getD "" ::
        (match saveStep opts gen (store callNo (preValidateHook gen doc).slug) doc with
         | .retry d => submittedSlugs opts gen store fuel (callNo + 1) d
         | _ => []) := rfl

theorem preValidateHook_slug (gen : Nat → String) (doc : DocState)
    (att : SlugDocumentAttachment)
    (h : (preValidateHook gen doc).attachment = some att) :
    (preValidateHook gen doc).slug = some (gen att.slugAttempts.length) := by
  rcases hA : doc.attachment with _ | a
  · rcases hS : doc.slug with _ | s
    · rw [preValidateHook_fresh gen doc hA hS] at h ⊢
      simp only at h
      obtain rfl : ({ slugAttempts := [] } : SlugDocumentAttachment) = att :=
        Option.some.inj h
      rfl
    · rw [preValidateHook_explicit gen doc s hA hS] at h
      rw [hA] at h
      exact Option.noConfusion h
  · rw [preValidateHook_attached gen doc a hA] at h ⊢
    obtain rfl : a = att := Option.some.inj h
    rfl

theorem countAttempts_append (v w : String) (l : List String) :
    countAttempts v (l ++ [w]) = countAttempts v l + (if w = v then 1 else 0) := by
  unfold countAttempts
  rw [List.filter_append, List.length_append]
  by_cases hw : w = v <;> simp [List.filter, hw]

theorem countAttempts_cons (v w : String) (l : List String) :
    countAttempts v (w :: l) = (if w = v then 1 else 0) + countAttempts v l := by
  unfold countAttempts
  by_cases hw : w = v <;> simp [List.filter, hw, Nat.add_comm]

/-- Inversion of the `continue` branch: a retry happens only after a store
error with tracker attached, with the just-generated slug occurring fewer
than 3 times in the history, and the retry state extends the history with
that slug. -/
theorem saveStep_retry_inversion (opts : SluggerOptions) (gen : Nat → String)
    (se : Option JsError) (doc d : DocState)
    (h : saveStep opts gen se doc = .retry d) :
    ∃ e att, se = some e ∧ (preValidateHook gen doc).attachment = some att ∧
      countAttempts (gen att.slugAttempts.length) att.slugAttempts < 3 ∧
      d = { preValidateHook gen doc with
        attachment := some { slugAttempts :=
          att.slugAttempts ++ [gen att.slugAttempts.length] } } := by
  cases se with
  | none => rw [saveStep_none] at h; cases h
  | some e =>
    by_cases hRC : RetryableConflict opts (preValidateHook gen doc) e
    · obtain ⟨hSome, hM, hCode, hMsg, hIdx⟩ := hRC
      obtain ⟨att, hAtt⟩ := Option.isSome_iff_exists.mp hSome
      have hSlug := preValidateHook_slug gen doc att hAtt
      rw [saveStep_conflict opts gen e doc att (gen att.slugAttempts.length)
        hAtt hSlug hM hCode hMsg hIdx] at h
      by_cases h3 : 3 ≤ countAttempts (gen att.slugAttempts.length) att.slugAttempts
      · rw [if_pos h3] at h; cases h
      · rw [if_neg h3] at h
        by_cases hMax : MaxAttemptsReached opts (att.slugAttempts.length + 1)
        · rw [if_pos hMax] at h; cases h
        · rw [if_neg hMax] at h
          injection h with hd
          exact ⟨e, att, rfl, hAtt, by omega, hd.symm⟩
    · rw [saveStep_not_retryable opts gen e doc hRC] at h; cases h

theorem attachmentSlugs_of_attached (doc : DocState) (att : SlugDocumentAttachment)
    (h : doc.attachment = some att) : attachmentSlugs doc = att.slugAttempts := by
  simp [attachmentSlugs, h]

theorem count_bound_preserved (opts : SluggerOptions) (gen : Nat → String)
    (se : Option JsError) (doc d : DocState)
    (hstep : saveStep opts gen se doc = .retry d)
    (hinv : ∀ w, countAttempts w (attachmentSlugs doc) ≤ 3) :
    ∀ w, countAttempts w (attachmentSlugs d) ≤ 3 := by
  obtain ⟨e, att, -, hAtt, h3, rfl⟩ := saveStep_retry_inversion opts gen se doc d hstep
  intro w
  have hdoc : attachmentSlugs doc = att.slugAttempts := by
    rw [← attachmentSlugs_preValidateHook gen doc]
    exact attachmentSlugs_of_attached _ att hAtt
  have hd : attachmentSlugs
      { preValidateHook gen doc with
        attachment := some { slugAttempts :=
          att.slugAttempts ++ [gen att.slugAttempts.length] } } =
      att.slugAttempts ++ [gen att.slugAttempts.length] := rfl
  rw [hd, countAttempts_append]
  have hw0 := hinv w
  rw [hdoc] at hw0
  by_cases hw : gen att.slugAttempts.length = w
  · rw [if_pos hw]
    rw [hw] at h3
    omega
  · rw [if_neg hw]
    omega

theorem submittedSlugs_done (opts : SluggerOptions) (gen : Nat → String)
    (store : Nat → Option String → Option JsError) (fuel callNo : Nat)
    (doc d : DocState)
    (h : saveStep opts gen (store callNo (preValidateHook gen doc).slug) doc = .done d) :
    submittedSlugs opts gen store (fuel + 1) callNo doc =
      [((preValidateHook gen doc).slug).getD ""] := by
  rw [submittedSlugs_succ, h]

theorem submittedSlugs_failed (opts : SluggerOptions) (gen : Nat → String)
    (store : Nat → Option String → Option JsError) (fuel callNo : Nat)
    (doc : DocState) (e : JsError)
    (h : saveStep opts gen (store callNo (preValidateHook gen doc).slug) doc = .failed e) :
    submittedSlugs opts gen store (fuel + 1) callNo doc =
      [((preValidateHook gen doc).slug).getD ""] := by
  rw [submittedSlugs_succ, h]

theorem submittedSlugs_retry (opts : SluggerOptions) (gen : Nat → String)
    (store : Nat → Option String → Option JsError) (fuel callNo : Nat)
    (doc d : DocState)
    (h : saveStep opts gen (store callNo (preValidateHook gen doc).slug) doc = .retry d) :
    submittedSlugs opts gen store (fuel + 1) callNo doc =
      ((preValidateHook gen doc).slug).getD "" ::
        submittedSlugs opts gen store fuel (callNo + 1) d := by
  rw [submittedSlugs_succ, h]

theorem submittedSlugs_count_bound (opts : SluggerOptions) (gen : Nat → String)
    (store : Nat → Option String → Option JsError) :
    ∀ (fuel callNo : Nat) (doc : DocState) (v : String),
      (∀ w, countAttempts w (attachmentSlugs doc) ≤ 3) →
      countAttempts v (submittedSlugs opts gen store fuel callNo doc) +
        countAttempts v (attachmentSlugs doc) ≤ 4 := by
  intro fuel
  induction fuel with
  | zero =>
    intro callNo doc v hinv
    have h0 : countAttempts v (submittedSlugs opts gen store 0 callNo doc) = 0 := rfl
    rw [h0]
    have := hinv v
    omega
  | succ fuel ih =>
    intro callNo doc v hinv
    cases hstep : saveStep opts gen (store callNo (preValidateHook gen doc).slug) doc with
    | done d =>
      rw [submittedSlugs_done opts gen store fuel callNo doc d hstep, countAttempts_cons]
      have := hinv v
      have hnil : countAttempts v ([] : List String) = 0 := rfl
      split_ifs <;> omega
    | failed e =>
      rw [submittedSlugs_failed opts gen store fuel callNo doc e hstep, countAttempts_cons]
      have := hinv v
      have hnil : countAttempts v ([] : List String) = 0 := rfl
      split_ifs <;> omega
    | retry d =>
      rw [submittedSlugs_retry opts gen store fuel callNo doc d hstep, countAttempts_cons]
      obtain ⟨e, att, -, hAtt, h3, hdeq⟩ :=
        saveStep_retry_inversion opts gen _ doc d hstep
      have hdoc : attachmentSlugs doc = att.slugAttempts := by
        rw [← attachmentSlugs_preValidateHook gen doc]
        exact attachmentSlugs_of_attached _ att hAtt
      have hdslugs : attachmentSlugs d =
          att.slugAttempts ++ [gen att.slugAttempts.length] := by
        rw [hdeq]
        rfl
      have hSlug := preValidateHook_slug gen doc att hAtt
      have hsub : ((preValidateHook gen doc).slug).getD "" =
          gen att.slugAttempts.length := by rw [hSlug]; rfl
      have hinv' : ∀ w, countAttempts w (attachmentSlugs d) ≤ 3 :=
        count_bound_preserved opts gen _ doc d hstep hinv
      have hih := ih (callNo + 1) d v hinv'
      rw [hdslugs, countAttempts_append] at hih
      rw [hsub, hdoc]
      by_cases hw : gen att.slugAttempts.length = v
      · rw [if_pos hw]
        rw [if_pos hw] at hih
        omega
      · rw [if_neg hw]
        rw [if_neg hw] at hih
        omega

/-- C10: (a) every `continue` of the orchestrator preserves the invariant
that no slug value occurs more than 3 times in the tracker's history, and
(b) starting from a document whose history satisfies the invariant (in
particular a fresh one), a given candidate slug value is submitted to the
store at most 4 times within one save call. -/
theorem attempts_invariant_and_submission_bound (opts : SluggerOptions)
    (gen : Nat → String) (store : Nat → Option String → Option JsError)
    (se : Option JsError) (doc d : DocState) (fuel callNo : Nat) (v : String)
    (hinv : ∀ w, countAttempts w (attachmentSlugs doc) ≤ 3) :
    (saveStep opts gen se doc = .retry d →
      ∀ w, countAttempts w (attachmentSlugs d) ≤ 3) ∧
    countAttempts v (submittedSlugs opts gen store fuel callNo doc) +
      countAttempts v (attachmentSlugs doc) ≤ 4 :=
  ⟨fun hstep => count_bound_preserved opts gen se doc d hstep hinv,
   submittedSlugs_count_bound opts gen store fuel callNo doc v hinv⟩

/-- Witness for `attempts_invariant_and_submission_bound` on a fresh document
with an always-conflicting store. -/
theorem attempts_invariant_and_submission_bound_witness :
    (∀ w, countAttempts w (attachmentSlugs ⟨none, none⟩) ≤ 3) ∧
    ((saveStep ⟨"idx", none⟩ (fun _ => "a")
        (some (.store "MongoError" (some 11000) "index: idx dup key: x")) ⟨none, none⟩ =
          .retry ⟨some "a", some ⟨["a"]⟩⟩ →
      ∀ w, countAttempts w (attachmentSlugs ⟨some "a", some ⟨["a"]⟩⟩) ≤ 3) ∧
    countAttempts "a" (submittedSlugs ⟨"idx", none⟩ (fun _ => "a")
        (fun _ _ => some (.store "MongoError" (some 11000) "index: idx dup key: x")) 6 0
        ⟨none, none⟩) +
      countAttempts "a" (attachmentSlugs ⟨none, none⟩) ≤ 4) :=
  ⟨fun w => by simp [attachmentSlugs, countAttempts],
   attempts_invariant_and_submission_bound ⟨"idx", none⟩ (fun _ => "a")
     (fun _ _ => some (.store "MongoError" (some 11000) "index: idx dup key: x"))
     (some (.store "MongoError" (some 11000) "index: idx dup key: x"))
     ⟨none, none⟩ ⟨some "a", some ⟨["a"]⟩⟩ 6 0 "a"
     (fun w => by simp [attachmentSlugs, countAttempts])⟩

end Slugger

namespace Slugger

/-! ## C3: exhaustion of `maxAttempts` -/

theorem saveSlugWithRetries_failed (opts : SluggerOptions) (gen : Nat → String)
    (store : Nat → Option String → Option JsError) (fuel callNo : Nat)
    (doc : DocState) (e : JsError)
    (h : saveStep opts gen (store callNo (preValidateHook gen doc).slug) doc = .failed e) :
    saveSlugWithRetries opts gen store (fuel + 1) callNo doc = some (.error e) := by
  rw [saveSlugWithRetries_succ, h]

theorem saveSlugWithRetries_retry (opts : SluggerOptions) (gen : Nat → String)
    (store : Nat → Option String → Option JsError) (fuel callNo : Nat)
    (doc d : DocState)
    (h : saveStep opts gen (store callNo (preValidateHook gen doc).slug) doc = .retry d) :
    saveSlugWithRetries opts gen store (fuel + 1) callNo doc =
      saveSlugWithRetries opts gen store fuel (callNo + 1) d := by
  rw [saveSlugWithRetries_succ, h]

/-- A save cycle against a store that always reports a retryable
duplicate-key conflict on the configured index, with an injective generator
and `maxAttempts = m`: starting with a history holding the candidates of
attempts `0 .. i-1`, the cycle performs exactly `m - i` further submissions
and then throws the exhausted-attempts error naming `m`. -/
theorem maxAttempts_conflict_run (opts : SluggerOptions) (gen : Nat → String)
    (e : JsError) (m : Nat)
    (hm : opts.maxAttempts = some m)
    (hInj : ∀ i j : Nat, gen i = gen j → i = j)
    (hM : isMongoError e = true) (hCode : e.code = some 11000) (hMsg : e.message ≠ "")
    (hIdx : extractIndexNameFromError e.message = some opts.index) :
    ∀ (fuel i callNo : Nat) (doc : DocState),
      preValidateHook gen doc =
        ⟨some (gen i), some ⟨(List.range i).map gen⟩⟩ →
      i < m → m - i ≤ fuel →
      saveSlugWithRetries opts gen (fun _ _ => some e) fuel callNo doc =
        some (.error (.sluggerError (maxAttemptsMessage m))) ∧
      (submittedSlugs opts gen (fun _ _ => some e) fuel callNo doc).length = m - i := by
  intro fuel
  induction fuel with
  | zero =>
    intro i callNo doc hhook hi hfuel
    exact absurd hfuel (by omega)
  | succ fuel ih =>
    intro i callNo doc hhook hi hfuel
    have hAtt : (preValidateHook gen doc).attachment = some ⟨(List.range i).map gen⟩ := by
      rw [hhook]
    have hSlug : (preValidateHook gen doc).slug = some (gen i) := by
      rw [hhook]
    have hstep := saveStep_conflict opts gen e doc ⟨(List.range i).map gen⟩ (gen i)
      hAtt hSlug hM hCode hMsg hIdx
    rw [show ((⟨(List.range i).map gen⟩ : SlugDocumentAttachment)).slugAttempts =
      (List.range i).map gen from rfl] at hstep
    have hlen : ((List.range i).map gen).length = i := by
      simp
    rw [hlen] at hstep
    have hcnt0 : countAttempts (gen i) ((List.range i).map gen) = 0 := by
      unfold countAttempts
      have hfil : (List.filter (fun slug => decide (slug = gen i))
          ((List.range i).map gen)) = [] := by
        rw [List.filter_eq_nil_iff]
        intro a ha
        simp only [List.mem_map, List.mem_range] at ha
        obtain ⟨j, hj, rfl⟩ := ha
        simp only [decide_eq_true_eq]
        intro hgeq
        exact absurd (hInj j i hgeq) (by omega)
      rw [hfil]
      rfl
    rw [hcnt0, if_neg (by omega : ¬ 3 ≤ 0)] at hstep
    by_cases hlast : i + 1 = m
    · have hmax : MaxAttemptsReached opts (i + 1) := by
        unfold MaxAttemptsReached
        rw [hm]
        exact ⟨by omega, by omega⟩
      rw [if_pos hmax] at hstep
      refine ⟨?_, ?_⟩
      · rw [saveSlugWithRetries_failed opts gen _ fuel callNo doc _ hstep, hlast]
      · rw [submittedSlugs_failed opts gen _ fuel callNo doc _ hstep]
        simp only [List.length_cons, List.length_nil]
        omega
    · have hmax : ¬ MaxAttemptsReached opts (i + 1) := by
        unfold MaxAttemptsReached
        rw [hm]
        rintro ⟨-, hle⟩
        omega
      rw [if_neg hmax] at hstep
      have hd0att : ({ preValidateHook gen doc with
          attachment := some { slugAttempts := (List.range i).map gen ++ [gen i] } } :
          DocState).attachment = some ⟨(List.range i).map gen ++ [gen i]⟩ := rfl
      have hr : (List.range i).map gen ++ [gen i] = (List.range (i + 1)).map gen := by
        rw [List.range_succ, List.map_append]
        rfl
      have hd0hook : preValidateHook gen
          { preValidateHook gen doc with
            attachment := some { slugAttempts := (List.range i).map gen ++ [gen i] } } =
          ⟨some (gen (i + 1)), some ⟨(List.range (i + 1)).map gen⟩⟩ := by
        rw [preValidateHook_attached gen _ _ hd0att]
        rw [show ((⟨(List.range i).map gen ++ [gen i]⟩ :
          SlugDocumentAttachment)).slugAttempts = (List.range i).map gen ++ [gen i] from rfl]
        rw [hr]
        simp
      obtain ⟨ih1, ih2⟩ := ih (i + 1) (callNo + 1) _ hd0hook (by omega) (by omega)
      refine ⟨?_, ?_⟩
      · rw [saveSlugWithRetries_retry opts gen _ fuel callNo doc _ hstep]
        exact ih1
      · rw [submittedSlugs_retry opts gen _ fuel callNo doc _ hstep]
        rw [List.length_cons, ih2]
        omega

/-- Counterexample to C3 as stated: with `maxAttempts = 10` and a store that
always conflicts on the configured index, the save cycle submits exactly 10
conflicting attempts; the exhausted-attempts error (with message naming 10)
is raised while handling the 10th conflict — no 11th conflicting attempt
exists. -/
theorem max_attempts_counterexample :
    saveSlugWithRetries ⟨"idx", some 10⟩ (fun n => "s" ++ Nat.repr n)
        (fun _ _ => some (.store "MongoError" (some 11000) "index: idx dup key: x")) 12 0
        ⟨none, none⟩ =
      some (.error (.sluggerError
        "Reached 10 attempts without being able to insert. Giving up.")) ∧
    (submittedSlugs ⟨"idx", some 10⟩ (fun n => "s" ++ Nat.repr n)
        (fun _ _ => some (.store "MongoError" (some 11000) "index: idx dup key: x")) 12 0
        ⟨none, none⟩).length = 10 := by
  exact ⟨rfl, by decide⟩

/-- C3 (amended): when `maxAttempts = m` is configured and the store keeps
reporting retryable duplicate-key conflicts on the configured index (with a
generator that never repeats candidates), the orchestrator submits exactly
`m` conflicting attempts and raises the exhausted-attempts error naming `m`
while handling the `m`-th conflict; in particular with `maxAttempts = 10`
the 10th conflicting attempt raises the error with a message containing
`10`, and no 11th write is submitted. -/
theorem max_attempts_exhausted_amended (opts : SluggerOptions) (gen : Nat → String)
    (e : JsError) (m fuel callNo : Nat)
    (hm : opts.maxAttempts = some m) (hm1 : 1 ≤ m)
    (hInj : ∀ i j : Nat, gen i = gen j → i = j)
    (hM : isMongoError e = true) (hCode : e.code = some 11000) (hMsg : e.message ≠ "")
    (hIdx : extractIndexNameFromError e.message = some opts.index)
    (hFuel : m ≤ fuel) :
    saveSlugWithRetries opts gen (fun _ _ => some e) fuel callNo ⟨none, none⟩ =
      some (.error (.sluggerError (maxAttemptsMessage m))) ∧
    (submittedSlugs opts gen (fun _ _ => some e) fuel callNo ⟨none, none⟩).length = m ∧
    maxAttemptsMessage m =
      "Reached " ++ Nat.repr m ++ " attempts without being able to insert. Giving up." := by
  have hhook : preValidateHook gen ⟨none, none⟩ =
      ⟨some (gen 0), some ⟨(List.range 0).map gen⟩⟩ := by
    rw [preValidateHook_fresh gen ⟨none, none⟩ rfl rfl]
    simp
  obtain ⟨h1, h2⟩ := maxAttempts_conflict_run opts gen e m hm hInj hM hCode hMsg hIdx
    fuel 0 callNo ⟨none, none⟩ hhook (by omega) (by omega)
  refine ⟨h1, ?_, rfl⟩
  rw [h2]
  omega

/-- Witness for `max_attempts_exhausted_amended` at `maxAttempts = 10`. -/
theorem max_attempts_exhausted_amended_witness :
    ((SluggerOptions.mk "idx" (some 10)).maxAttempts = some 10 ∧
      (1 : Nat) ≤ 10 ∧
      (∀ i j : Nat, ("s" ++ Nat.repr i) = ("s" ++ Nat.repr j) → i = j) ∧
      isMongoError (.store "MongoError" (some 11000) "index: idx dup key: x") = true ∧
      (JsError.store "MongoError" (some 11000) "index: idx dup key: x").code = some 11000 ∧
      (JsError.store "MongoError" (some 11000) "index: idx dup key: x").message ≠ "" ∧
      extractIndexNameFromError
        (JsError.store "MongoError" (some 11000) "index: idx dup key: x").message =
        some (SluggerOptions.mk "idx" (some 10)).index ∧
      (10 : Nat) ≤ 12) ∧
    (saveSlugWithRetries ⟨"idx", some 10⟩ (fun n => "s" ++ Nat.repr n)
        (fun _ _ => some (.store "MongoError" (some 11000) "index: idx dup key: x")) 12 0
        ⟨none, none⟩ =
      some (.error (.sluggerError (maxAttemptsMessage 10))) ∧
    (submittedSlugs ⟨"idx", some 10⟩ (fun n => "s" ++ Nat.repr n)
        (fun _ _ => some (.store "MongoError" (some 11000) "index: idx dup key: x")) 12 0
        ⟨none, none⟩).length = 10 ∧
    maxAttemptsMessage 10 =
      "Reached " ++ Nat.repr 10 ++ " attempts without being able to insert. Giving up.") :=
  ⟨⟨rfl, by decide,
    fun i j h => reprNat_inj i j (string_append_left_cancel "s" (Nat.repr i) (Nat.repr j) h),
    by decide, by decide, by decide, by decide, by decide⟩,
   max_attempts_exhausted_amended ⟨"idx", some 10⟩ (fun n => "s" ++ Nat.repr n)
     (.store "MongoError" (some 11000) "index: idx dup key: x") 10 12 0
     rfl (by decide)
     (fun i j h => reprNat_inj i j (string_append_left_cancel "s" (Nat.repr i) (Nat.repr j) h))
     (by decide) (by decide) (by decide) (by decide) (by decide)⟩

end Slugger
